import Mathlib

/-!
Shallow embedding of `sample_data.py`: the record data model, the Composite
Sort Key (`extract_numeric_id`), stable sorting (`sort_by_numeric_id`), the
sampling engine (`sample_records_with_answers`) and the directory
orchestrator (`process_directory`), together with theorems about the
specification's claims.

Python dictionaries are modelled as `Record` values carrying the only field
the sampling logic inspects (the `"id"` key, absent keys as `none`) plus an
opaque `tag` standing for the rest of the payload.  Python exceptions are
modelled with `Except PyErr`; the global random source is modelled by an
explicit draw function passed to the sampler.
-/

namespace SampleData

/-- A JSON object.  `id = none` models a dict that has no `"id"` key; `tag`
stands for the remaining key/value payload, which the sampling logic never
inspects. -/
structure Record where
  id : Option String
  tag : Nat
deriving DecidableEq

/-- Python exceptions that the modelled code can raise. -/
inductive PyErr where
  | nameError (n : String)
  | unboundLocalError (n : String)
  | valueError (msg : String)
  | keyError (k : String)
deriving DecidableEq

/-- Value of a string of ASCII digits, as read by Python's `int`. -/
def digitsToNat (cs : List Char) : Nat :=
  cs.foldl (fun acc c => acc * 10 + (c.toNat - 48)) 0

/-- ASCII whitespace stripped by Python's `int` before parsing. -/
def isPySpace (c : Char) : Bool :=
  c = ' ' || c = '\t' || c = '\n' || c = '\r'

/-- `str.strip()` on a character list. -/
def stripChars (cs : List Char) : List Char :=
  ((cs.dropWhile isPySpace).reverse.dropWhile isPySpace).reverse

/-- Python's `int(s)` on the strings arising here: optional surrounding
whitespace, an optional sign, then one or more ASCII digits.  `none` models
`ValueError`.  (Non-ASCII digit forms are outside the modelled character
set.) -/
def pyInt (s : String) : Option Int :=
  let cs := stripChars s.toList
  let signed : Bool × List Char :=
    match cs with
    | '-' :: rest => (true, rest)
    | '+' :: rest => (false, rest)
    | _ => (false, cs)
  if signed.2 ≠ [] ∧ signed.2.all Char.isDigit then
    some (if signed.1 then -(digitsToNat signed.2 : Int) else (digitsToNat signed.2 : Int))
  else none

/-- `str.split(sep)` for a one-character separator, on character lists:
keeps empty fields, `[[]]` on the empty input. -/
def splitChar (sep : Char) : List Char → List (List Char)
  | [] => [[]]
  | c :: cs =>
    match splitChar sep cs with
    | [] => [[c]]
    | g :: gs => if c = sep then [] :: g :: gs else (c :: g) :: gs

/-- `id_str.split("_")` (sample_data.py line 57). -/
def pySplitUnderscore (s : String) : List String :=
  (splitChar '_' s.toList).map List.asString

/-- `"_".join(parts)` (sample_data.py line 63). -/
def joinUnderscore : List String → String
  | [] => ""
  | [s] => s
  | s :: rest => s ++ "_" ++ joinUnderscore rest

/-- The Composite Sort Key: model of `extract_numeric_id` (sample_data.py
lines 47-74).  `record.get("id", "")` gives `""` when the key is absent; an
empty id maps to `("", 0)`; with two or more `"_"`-separated parts whose last
parses as an integer the key is the rejoined remaining parts with that
integer; otherwise the digit characters are concatenated into the numeric
component (Python's `int` on them fails exactly when there are none, giving
`(id_str, 0)`) with the alphabetic characters as the first component. -/
def extract_numeric_id (record : Record) : String × Int :=
  let id_str := record.id.getD ""
  if id_str = "" then ("", 0)
  else
    let parts := pySplitUnderscore id_str
    match if 2 ≤ parts.length then pyInt (parts.getLast?.getD "") else none with
    | some n => (joinUnderscore parts.dropLast, n)
    | none =>
      let digits := id_str.toList.filter Char.isDigit
      if digits = [] then (id_str, 0)
      else ((id_str.toList.filter Char.isAlpha).asString, (digitsToNat digits : Int))

/-- Python's `str` comparison on character lists: lexicographic by Unicode
code point. -/
def charListLE : List Char → List Char → Bool
  | [], _ => true
  | _ :: _, [] => false
  | a :: as, b :: bs => if a = b then charListLE as bs else decide (a.toNat < b.toNat)

theorem char_toNat_inj {a b : Char} (h : a.toNat = b.toNat) : a = b :=
  Char.eq_of_val_eq (UInt32.eq_of_toBitVec_eq (BitVec.eq_of_toNat_eq h))

theorem charListLE_total (as bs : List Char) :
    charListLE as bs = true ∨ charListLE bs as = true := by
  induction as generalizing bs with
  | nil => exact Or.inl rfl
  | cons a as ih =>
    cases bs with
    | nil => exact Or.inr rfl
    | cons b bs =>
      by_cases e : a = b
      · subst e
        simpa [charListLE] using ih bs
      · rcases Nat.lt_trichotomy a.toNat b.toNat with h | h | h
        · exact Or.inl (by simp [charListLE, e, h])
        · exact absurd (char_toNat_inj h) e
        · exact Or.inr (by simp [charListLE, Ne.symm e, h])

theorem charListLE_trans {as bs cs : List Char}
    (h1 : charListLE as bs = true) (h2 : charListLE bs cs = true) :
    charListLE as cs = true := by
  induction as generalizing bs cs with
  | nil => rfl
  | cons a as ih =>
    cases bs with
    | nil => simp [charListLE] at h1
    | cons b bs =>
      cases cs with
      | nil => simp [charListLE] at h2
      | cons c cs =>
        by_cases e1 : a = b <;> by_cases e2 : b = c
        · subst e1; subst e2
          simp only [charListLE, if_pos rfl] at h1 h2 ⊢
          exact ih h1 h2
        · subst e1
          simpa [charListLE, e2] using h2
        · subst e2
          simpa [charListLE, e1] using h1
        · simp only [charListLE, if_neg e1, decide_eq_true_eq] at h1
          simp only [charListLE, if_neg e2, decide_eq_true_eq] at h2
          by_cases e3 : a = c
          · subst e3; omega
          · simp [charListLE, e3]
            omega

theorem charListLE_antisymm {as bs : List Char}
    (h1 : charListLE as bs = true) (h2 : charListLE bs as = true) : as = bs := by
  induction as generalizing bs with
  | nil =>
    cases bs with
    | nil => rfl
    | cons b bs => simp [charListLE] at h2
  | cons a as ih =>
    cases bs with
    | nil => simp [charListLE] at h1
    | cons b bs =>
      by_cases e : a = b
      · subst e
        simp only [charListLE, if_pos rfl] at h1 h2
        exact congrArg _ (ih h1 h2)
      · simp only [charListLE, if_neg e, if_neg (Ne.symm e), decide_eq_true_eq] at h1 h2
        omega

/-- Python's tuple comparison on `(str, int)` sort keys: lexicographic, with
strings compared by code points. -/
def keyLE (p q : String × Int) : Bool :=
  if p.1 = q.1 then decide (p.2 ≤ q.2) else charListLE p.1.toList q.1.toList

/-- The sort relation `sorted(records, key=extract_numeric_id)` orders by. -/
def RecordLE (a b : Record) : Prop :=
  keyLE (extract_numeric_id a) (extract_numeric_id b) = true

instance : DecidableRel RecordLE := fun a b => by
  unfold RecordLE; infer_instance

theorem keyLE_total (p q : String × Int) : keyLE p q = true ∨ keyLE q p = true := by
  unfold keyLE
  by_cases e : p.1 = q.1
  · rw [if_pos e, if_pos e.symm]
    rcases Int.le_total p.2 q.2 with h | h
    · exact Or.inl (decide_eq_true h)
    · exact Or.inr (decide_eq_true h)
  · rw [if_neg e, if_neg (Ne.symm e)]
    exact charListLE_total p.1.toList q.1.toList

theorem keyLE_trans {p q r : String × Int}
    (h1 : keyLE p q = true) (h2 : keyLE q r = true) : keyLE p r = true := by
  unfold keyLE at *
  by_cases e1 : p.1 = q.1 <;> by_cases e2 : q.1 = r.1
  · rw [if_pos e1] at h1
    rw [if_pos e2] at h2
    rw [if_pos (e1.trans e2)]
    exact decide_eq_true (le_trans (of_decide_eq_true h1) (of_decide_eq_true h2))
  · rw [if_neg e2] at h2
    rw [if_neg (e1 ▸ e2), e1]
    exact h2
  · rw [if_neg e1] at h1
    rw [if_neg (e2 ▸ e1), ← e2]
    exact h1
  · rw [if_neg e1] at h1
    rw [if_neg e2] at h2
    have e3 : p.1 ≠ r.1 := by
      intro e
      rw [← e] at h2
      exact e1 (String.toList_inj.mp (charListLE_antisymm h1 h2))
    rw [if_neg e3]
    exact charListLE_trans h1 h2

instance : IsTotal Record RecordLE :=
  ⟨fun a b => keyLE_total (extract_numeric_id a) (extract_numeric_id b)⟩

instance : IsTrans Record RecordLE :=
  ⟨fun _ _ _ hab hbc => keyLE_trans hab hbc⟩

/-- Model of `sort_by_numeric_id` (lines 77-79): Python's stable `sorted`
with key `extract_numeric_id`, embedded as a stable insertion sort by the
induced total preorder. -/
def sort_by_numeric_id (records : List Record) : List Record :=
  List.insertionSort RecordLE records

/-- Model of `save_jsonl_file` (lines 19-27): the sequence of records as
written to the destination file, in file order.  Directory creation and the
JSON-line serialisation are the I/O boundary and are not modelled. -/
def save_jsonl_file (records : List Record) : List Record :=
  sort_by_numeric_id records

/-- Model of `get_answer_ids` (lines 35-37): the ids the membership test of
the filter consults, `answer.get("id")` for each answer (`none` when the key
is absent). -/
def get_answer_ids (answers : List Record) : List (Option String) :=
  answers.map Record.id

/-- Model of `filter_records_with_answers` (lines 40-44). -/
def filter_records_with_answers (records : List Record)
    (answer_ids : List (Option String)) : List Record :=
  records.filter (fun r => answer_ids.contains r.id)

/-- Model of the dict comprehension at line 96: iterate the answers in
order, `answer["id"]` raising `KeyError` when the `"id"` key is absent.  The
accumulated association list grows at the head, so `List.lookup` (first
match) finds the most recently inserted binding, matching the
last-assignment-wins behaviour of a Python dict. -/
def buildAnswerMap (answers : List Record) : Except PyErr (List (String × Record)) :=
  answers.foldl
    (fun acc a =>
      match acc, a.id with
      | Except.error e, _ => Except.error e
      | Except.ok _, none => Except.error (PyErr.keyError "id")
      | Except.ok m, some i => Except.ok ((i, a) :: m))
    (Except.ok [])

/-- Model of the loop at lines 106-109: for each sampled record in order,
append the mapped answer when `record["id"]` is a key of the map and skip
silently otherwise; `record["id"]` raises `KeyError` when the record has no
`"id"` key. -/
def collectAnswers (answer_map : List (String × Record)) :
    List Record → Except PyErr (List Record)
  | [] => Except.ok []
  | r :: rest =>
    match r.id with
    | none => Except.error (PyErr.keyError "id")
    | some i =>
      match answer_map.lookup i with
      | some a => (collectAnswers answer_map rest).map (fun t => a :: t)
      | none => collectAnswers answer_map rest

/-- Python's `int()` on a real number: truncation toward zero.  The float
arithmetic of the source is idealised as exact rational arithmetic. -/
def pyTrunc (q : ℚ) : Int :=
  if 0 ≤ q then ⌊q⌋ else ⌈q⌉

/-- The sample size `max(1, int(len(population) * sample_ratio))` of lines
99 and 181-182. -/
def num_samples (n : Nat) (sample_ratio : ℚ) : Nat :=
  (max 1 (pyTrunc ((n : ℚ) * sample_ratio))).toNat

/-- A draw function stands for the global random source consumed by
`random.sample`: given the population and the sample size it yields the
chosen records. -/
def DrawFn : Type := List Record → Nat → List Record

/-- `random.sample(pop, k)` (lines 100 and 181): raises `ValueError` when
the requested size exceeds the population size, otherwise yields `k`
records chosen without replacement by the random source. -/
def randomSample (draw : DrawFn) (pop : List Record) (k : Nat) :
    Except PyErr (List Record) :=
  if k ≤ pop.length then Except.ok (draw pop k)
  else Except.error (PyErr.valueError "Sample larger than population or is negative")

/-- A valid draw returns `k` records chosen without replacement from the
population whenever that is possible: a length-`k` sub-permutation. -/
def ValidDraw (draw : DrawFn) : Prop :=
  ∀ pop k, k ≤ pop.length → (draw pop k).length = k ∧ (draw pop k).Subperm pop

/-- One valid draw: take the first `k` records of the population. -/
def takeDraw : DrawFn := fun pop k => pop.take k

/-- Model of `sample_records_with_answers` (lines 82-125).  The final
statement of the body (line 122) reads a variable `sampled_ids` that is
assigned nowhere in the module, so every execution that reaches it raises
`NameError`; the truncated pair of lines 111-119 is computed but can never
be returned. -/
def sample_records_with_answers (draw : DrawFn) (records answers : List Record)
    (sample_ratio : ℚ) : Except PyErr (List Record × List Record) :=
  let answer_ids := get_answer_ids answers
  let valid_records := filter_records_with_answers records answer_ids
  match buildAnswerMap answers with
  | Except.error e => Except.error e
  | Except.ok answer_map =>
    match randomSample draw valid_records (num_samples valid_records.length sample_ratio) with
    | Except.error e => Except.error e
    | Except.ok sampled =>
      let sampled_records := sort_by_numeric_id sampled
      match collectAnswers answer_map sampled_records with
      | Except.error e => Except.error e
      | Except.ok sampled_answers =>
        let minLen := min sampled_records.length sampled_answers.length
        let _truncated :=
          if sampled_records.length ≠ sampled_answers.length then
            (sampled_records.take minLen, sampled_answers.take minLen)
          else (sampled_records, sampled_answers)
        Except.error (PyErr.nameError "sampled_ids")

/-- One regular file directly inside the source directory: its filename, its
extension (`Path.suffix`, dot included) and its parsed line-delimited
records. -/
structure SrcFile where
  name : String
  ext : String
  content : List Record
deriving DecidableEq

/-- ASCII case-lowering, the `.lower()` applied to `Path.suffix` (extensions
are ASCII). -/
def lowerChar (c : Char) : Char :=
  if 65 ≤ c.toNat ∧ c.toNat ≤ 90 then Char.ofNat (c.toNat + 32) else c

/-- `s.lower()` on an ASCII string. -/
def strLower (s : String) : String :=
  (s.toList.map lowerChar).asString

/-- Line 145: the file's extension, lowercased, is `.json` or `.jsonl`. -/
def eligible (f : SrcFile) : Bool :=
  strLower f.ext = ".json" || strLower f.ext = ".jsonl"

/-- What processing one eligible file produces: a saved records file, a
saved records file together with a saved `possible_answer` file, or a
logged per-file error. -/
inductive FileOutcome where
  | savedRecords (name : String) (content : List Record)
  | savedWithAnswers (name : String) (records answers : List Record)
  | errorLogged (name : String) (e : PyErr)
deriving DecidableEq

/-- Lines 152-153: the function-scoped `records` variable is reassigned only
for a `.jsonl` extension; any previous value leaks through otherwise. -/
def updateRecordsVar (recordsVar : Option (List Record)) (f : SrcFile) :
    Option (List Record) :=
  if strLower f.ext = ".jsonl" then some f.content else recordsVar

/-- Referencing the `records` variable (lines 164 and 181-182):
`UnboundLocalError` when it was never assigned. -/
def readRecordsVar : Option (List Record) → Except PyErr (List Record)
  | some rs => Except.ok rs
  | none => Except.error (PyErr.unboundLocalError "records")

/-- The body of the per-file `try` block (lines 150-186), after the
`records` variable has been updated.  `pa` maps a filename to the parsed
records of `possible_answer/<filename>` when that sibling file exists. -/
def processFileBody (draw : DrawFn) (pa : List (String × List Record))
    (rate : ℚ) (recordsVar : Option (List Record)) (f : SrcFile) :
    Except PyErr FileOutcome :=
  match pa.lookup f.name with
  | some answers =>
    match readRecordsVar recordsVar with
    | Except.error e => Except.error e
    | Except.ok records =>
      match sample_records_with_answers draw records answers rate with
      | Except.error e => Except.error e
      | Except.ok pair =>
        Except.ok (FileOutcome.savedWithAnswers f.name
          (save_jsonl_file pair.1) (save_jsonl_file pair.2))
  | none =>
    match readRecordsVar recordsVar with
    | Except.error e => Except.error e
    | Except.ok records =>
      match randomSample draw records (num_samples records.length rate) with
      | Except.error e => Except.error e
      | Except.ok sampled =>
        Except.ok (FileOutcome.savedRecords f.name (save_jsonl_file sampled))

/-- Lines 188-189: the per-file `except` block turns any exception into a
logged diagnostic naming the file. -/
def catchLogged (name : String) : Except PyErr FileOutcome → FileOutcome
  | Except.ok o => o
  | Except.error e => FileOutcome.errorLogged name e

/-- The loop of lines 141-189 over the directory's regular files, threading
the function-scoped `records` variable across iterations. -/
def processLoop (draw : DrawFn) (pa : List (String × List Record)) (rate : ℚ) :
    Option (List Record) → List SrcFile → List FileOutcome
  | _, [] => []
  | recordsVar, f :: rest =>
    if eligible f then
      let rv := updateRecordsVar recordsVar f
      catchLogged f.name (processFileBody draw pa rate rv f) ::
        processLoop draw pa rate rv rest
    else
      processLoop draw pa rate recordsVar rest

/-- Model of `process_directory` (lines 128-189).  Source-directory
existence, destination creation and file writing are the I/O boundary;
`files` lists the regular files directly in the source directory in
iteration order. -/
def process_directory (draw : DrawFn) (files : List SrcFile)
    (pa : List (String × List Record)) (rate : ℚ) : List FileOutcome :=
  processLoop draw pa rate none files

/-- The file path each outcome was logged or saved under. -/
def outcomeName : FileOutcome → String
  | FileOutcome.savedRecords n _ => n
  | FileOutcome.savedWithAnswers n _ _ => n
  | FileOutcome.errorLogged n _ => n

/-- A record collection ordered by the Composite Sort Key. -/
def SortedByKey (l : List Record) : Prop :=
  List.Sorted RecordLE l

theorem validDraw_takeDraw : ValidDraw takeDraw := by
  intro pop k hk
  constructor
  · simpa [takeDraw] using Nat.min_eq_left hk
  · exact (List.take_sublist k pop).subperm

theorem pyTrunc_nonneg_eq {q : ℚ} (h : 0 ≤ q) : pyTrunc q = ⌊q⌋ := if_pos h

theorem num_samples_zero (ratio : ℚ) : num_samples 0 ratio = 1 := by
  unfold num_samples
  rw [Nat.cast_zero, zero_mul, pyTrunc_nonneg_eq le_rfl]
  simp

theorem num_samples_eq_max_floor (n : Nat) (ratio : ℚ) (h0 : 0 ≤ ratio) :
    (num_samples n ratio : ℤ) = max 1 ⌊(n : ℚ) * ratio⌋ := by
  unfold num_samples
  rw [pyTrunc_nonneg_eq (mul_nonneg (by positivity) h0)]
  exact Int.toNat_of_nonneg (le_trans Int.one_pos.le (le_max_left _ _))

theorem num_samples_le (n : Nat) (ratio : ℚ) (hn : 1 ≤ n) (h0 : 0 ≤ ratio)
    (h1 : ratio ≤ 1) : num_samples n ratio ≤ n := by
  have hfloor : ⌊(n : ℚ) * ratio⌋ ≤ (n : ℤ) := by
    calc ⌊(n : ℚ) * ratio⌋ ≤ ⌊(n : ℚ)⌋ :=
          Int.floor_le_floor (mul_le_of_le_one_right (by positivity) h1)
    _ = (n : ℤ) := Int.floor_natCast n
  unfold num_samples
  rw [pyTrunc_nonneg_eq (mul_nonneg (by positivity) h0)]
  omega

theorem num_samples_ratio_one (n : Nat) : num_samples n 1 = max 1 n := by
  unfold num_samples
  rw [mul_one, pyTrunc_nonneg_eq (by positivity), Int.floor_natCast]
  omega

theorem buildAnswerMap_ok (answers : List Record)
    (h : ∀ a ∈ answers, a.id ≠ none) :
    ∃ m, buildAnswerMap answers = Except.ok m := by
  unfold buildAnswerMap
  suffices hgen : ∀ m0 : List (String × Record),
      ∃ m, answers.foldl
        (fun acc a =>
          match acc, a.id with
          | Except.error e, _ => Except.error e
          | Except.ok _, none => Except.error (PyErr.keyError "id")
          | Except.ok m, some i => Except.ok ((i, a) :: m))
        (Except.ok m0) = Except.ok m from hgen []
  induction answers with
  | nil => exact fun m0 => ⟨m0, rfl⟩
  | cons a rest ih =>
    intro m0
    rcases hid : a.id with _ | i
    · exact absurd hid (h a (by simp))
    · have hrest := fun x hx => h x (List.mem_cons_of_mem a hx)
      obtain ⟨m, hm⟩ := ih hrest ((i, a) :: m0)
      exact ⟨m, by rw [List.foldl_cons, hid]; exact hm⟩

theorem collectAnswers_ok (m : List (String × Record)) (l : List Record)
    (h : ∀ r ∈ l, r.id ≠ none) : ∃ t, collectAnswers m l = Except.ok t := by
  induction l with
  | nil => exact ⟨[], rfl⟩
  | cons r rest ih =>
    rcases hid : r.id with _ | i
    · exact absurd hid (h r (by simp))
    · obtain ⟨t, ht⟩ := ih (fun x hx => h x (List.mem_cons_of_mem r hx))
      rcases hlk : m.lookup i with _ | a
      · exact ⟨t, by simp [collectAnswers, hid, hlk, ht]⟩
      · exact ⟨a :: t, by simp [collectAnswers, hid, hlk, ht, Except.map]⟩

theorem mem_filter_id_ne_none {records : List Record} {answers : List Record}
    (hids : ∀ a ∈ answers, a.id ≠ none) {r : Record}
    (hr : r ∈ filter_records_with_answers records (get_answer_ids answers)) :
    r.id ≠ none := by
  unfold filter_records_with_answers at hr
  have hmem := (List.mem_filter.mp hr).2
  obtain ⟨x, hx, hbeq⟩ := List.contains_iff_exists_mem_beq.mp hmem
  have hrx : r.id = x := eq_of_beq hbeq
  unfold get_answer_ids at hx
  obtain ⟨a, ha, hae⟩ := List.mem_map.mp hx
  rw [hrx, ← hae]
  exact hids a ha

/-- The heart of the sampler bug: whenever the answers all carry ids, the
ratio is in scope and the filtered population is non-empty, execution flows
past every guard and reaches line 122, which reads the undefined variable
`sampled_ids`. -/
theorem sample_engine_raises (draw : DrawFn) (hdraw : ValidDraw draw)
    (records answers : List Record) (ratio : ℚ)
    (hids : ∀ a ∈ answers, a.id ≠ none)
    (h0 : 0 < ratio) (h1 : ratio ≤ 1)
    (hpop : filter_records_with_answers records (get_answer_ids answers) ≠ []) :
    sample_records_with_answers draw records answers ratio =
      Except.error (PyErr.nameError "sampled_ids") := by
  obtain ⟨m, hm⟩ := buildAnswerMap_ok answers hids
  have hlen : 1 ≤ (filter_records_with_answers records (get_answer_ids answers)).length :=
    List.length_pos.mpr hpop
  have hle : num_samples (filter_records_with_answers records (get_answer_ids answers)).length ratio ≤
      (filter_records_with_answers records (get_answer_ids answers)).length :=
    num_samples_le _ _ hlen h0.le h1
  have hdrawok := hdraw _ _ hle
  have hmemids : ∀ r ∈ sort_by_numeric_id
      (draw (filter_records_with_answers records (get_answer_ids answers))
        (num_samples (filter_records_with_answers records (get_answer_ids answers)).length ratio)),
      r.id ≠ none := by
    intro r hr
    have hrd : r ∈ draw (filter_records_with_answers records (get_answer_ids answers))
        (num_samples (filter_records_with_answers records (get_answer_ids answers)).length ratio) := by
      unfold sort_by_numeric_id at hr
      exact (List.mem_insertionSort RecordLE).mp hr
    exact mem_filter_id_ne_none hids (hdrawok.2.subset hrd)
  obtain ⟨t, ht⟩ := collectAnswers_ok m _ hmemids
  unfold sample_records_with_answers randomSample
  simp only [hm, if_pos hle, ht]

/-- Every collection a `FileOutcome` reports as saved is in canonical sorted
order. -/
def SavedSorted : FileOutcome → Prop
  | FileOutcome.savedRecords _ c => SortedByKey c
  | FileOutcome.savedWithAnswers _ r a => SortedByKey r ∧ SortedByKey a
  | FileOutcome.errorLogged _ _ => True

/-- The Composite Sort Key as the specification words it: the empty id maps
to `("", 0)`; if splitting on `"_"` yields two or more parts and the final
part parses as an integer, the key is the remaining parts rejoined by `"_"`
paired with that integer; otherwise the key is the alphabetic characters
paired with the integer formed by concatenating the digit characters, and
the full id with `0` when the id contains no digits. -/
def compositeSortKeySpec (id_str : String) : String × Int :=
  if id_str = "" then ("", 0)
  else if 2 ≤ (pySplitUnderscore id_str).length ∧
      (pyInt ((pySplitUnderscore id_str).getLast?.getD "")).isSome then
    (joinUnderscore (pySplitUnderscore id_str).dropLast,
      (pyInt ((pySplitUnderscore id_str).getLast?.getD "")).getD 0)
  else if id_str.toList.filter Char.isDigit = [] then (id_str, 0)
  else ((id_str.toList.filter Char.isAlpha).asString,
    (digitsToNat (id_str.toList.filter Char.isDigit) : Int))

theorem sortedByKey_save (recs : List Record) : SortedByKey (save_jsonl_file recs) :=
  List.sorted_insertionSort RecordLE recs

theorem save_perm (recs : List Record) : (save_jsonl_file recs).Perm recs :=
  List.perm_insertionSort RecordLE recs

theorem processed_name (draw : DrawFn) (pa : List (String × List Record))
    (rate : ℚ) (rv : Option (List Record)) (f : SrcFile) :
    outcomeName (catchLogged f.name (processFileBody draw pa rate rv f)) = f.name := by
  unfold processFileBody
  cases hpa : pa.lookup f.name with
  | none =>
    cases hrv : readRecordsVar rv with
    | error e => rfl
    | ok records =>
      dsimp only
      cases hs : randomSample draw records (num_samples records.length rate) with
      | error e => rfl
      | ok sampled => rfl
  | some answers =>
    cases hrv : readRecordsVar rv with
    | error e => rfl
    | ok records =>
      dsimp only
      cases hs : sample_records_with_answers draw records answers rate with
      | error e => rfl
      | ok pair => rfl

theorem processLoop_names (draw : DrawFn) (pa : List (String × List Record))
    (rate : ℚ) : ∀ (files : List SrcFile) (rv : Option (List Record)),
    (processLoop draw pa rate rv files).map outcomeName =
      (files.filter eligible).map SrcFile.name
  | [], _ => rfl
  | f :: rest, rv => by
    unfold processLoop
    by_cases he : eligible f = true
    · rw [if_pos he, List.filter_cons_of_pos he]
      rw [List.map_cons, List.map_cons, processed_name,
        processLoop_names draw pa rate rest _]
    · rw [if_neg he, List.filter_cons_of_neg he]
      exact processLoop_names draw pa rate rest rv

theorem savedSorted_body (draw : DrawFn) (pa : List (String × List Record))
    (rate : ℚ) (rv : Option (List Record)) (f : SrcFile) :
    SavedSorted (catchLogged f.name (processFileBody draw pa rate rv f)) := by
  unfold processFileBody
  cases hpa : pa.lookup f.name with
  | none =>
    cases hrv : readRecordsVar rv with
    | error e => trivial
    | ok records =>
      dsimp only
      cases hs : randomSample draw records (num_samples records.length rate) with
      | error e => trivial
      | ok sampled => exact sortedByKey_save sampled
  | some answers =>
    cases hrv : readRecordsVar rv with
    | error e => trivial
    | ok records =>
      dsimp only
      cases hs : sample_records_with_answers draw records answers rate with
      | error e => trivial
      | ok pair => exact ⟨sortedByKey_save pair.1, sortedByKey_save pair.2⟩

theorem savedSorted_processLoop (draw : DrawFn) (pa : List (String × List Record))
    (rate : ℚ) : ∀ (files : List SrcFile) (rv : Option (List Record)),
    ∀ o ∈ processLoop draw pa rate rv files, SavedSorted o
  | [], _ => by intro o ho; simp [processLoop] at ho
  | f :: rest, rv => by
    intro o ho
    unfold processLoop at ho
    by_cases he : eligible f = true
    · rw [if_pos he, List.mem_cons] at ho
      rcases ho with ho | ho
      · exact ho ▸ savedSorted_body draw pa rate _ f
      · exact savedSorted_processLoop draw pa rate rest _ o ho
    · rw [if_neg he] at ho
      exact savedSorted_processLoop draw pa rate rest rv o ho

theorem extract_numeric_id_eq_spec (r : Record) :
    extract_numeric_id r = compositeSortKeySpec (r.id.getD "") := by
  unfold extract_numeric_id compositeSortKeySpec
  by_cases h0 : r.id.getD "" = ""
  · rw [if_pos h0, if_pos h0]
  · rw [if_neg h0, if_neg h0]
    dsimp only
    by_cases h2 : 2 ≤ (pySplitUnderscore (r.id.getD "")).length
    · rw [if_pos h2]
      cases hp : pyInt ((pySplitUnderscore (r.id.getD "")).getLast?.getD "") with
      | some n =>
        rw [if_pos (⟨h2, rfl⟩ : 2 ≤ (pySplitUnderscore (r.id.getD "")).length ∧
          (some n : Option Int).isSome = true)]
        rfl
      | none =>
        rw [if_neg (fun hand => by simpa using hand.2 :
          ¬(2 ≤ (pySplitUnderscore (r.id.getD "")).length ∧
            (none : Option Int).isSome = true))]
    · have hcond : ¬(2 ≤ (pySplitUnderscore (r.id.getD "")).length ∧
          (pyInt ((pySplitUnderscore (r.id.getD "")).getLast?.getD "")).isSome = true) :=
        fun hand => h2 hand.1
      rw [if_neg h2, if_neg hcond]

instance (l : List Record) : Decidable (SortedByKey l) :=
  List.decidableSorted l

/-! Concrete fixtures used by the claim witnesses and counterexamples. -/

def recA : Record := ⟨some "a_1", 0⟩

def recB : Record := ⟨some "b_1", 0⟩

def recC : Record := ⟨some "c_1", 0⟩

def recD1 : Record := ⟨some "d_1", 0⟩

def recD2 : Record := ⟨some "d_2", 0⟩

def recX1 : Record := ⟨some "x_1", 0⟩

def recX2 : Record := ⟨some "x_2", 1⟩

def ansX1 : Record := ⟨some "x_1", 10⟩

def ansX2 : Record := ⟨some "x_2", 11⟩

def fileA : SrcFile := ⟨"a.json", ".json", [recA]⟩

def fileB : SrcFile := ⟨"b.jsonl", ".jsonl", [recB]⟩

def fileC : SrcFile := ⟨"c.json", ".json", [recC]⟩

def fileD : SrcFile := ⟨"d.jsonl", ".jsonl", [recD2, recD1]⟩

/-- C1: the claim says `sample_records_with_answers` returns a pair whose id
sets agree, with the answers re-filtered and sorted.  On the code the
function cannot return at all: line 122 filters by the undefined name
`sampled_ids`, so the call with records `[{"id": "a_1"}]`, answers
`[{"id": "a_1"}]` and ratio `1` raises `NameError` instead of returning the
claimed pair. -/
theorem C1_sampler_raises_instead_of_returning :
    sample_records_with_answers takeDraw [recA] [recA] 1 =
      Except.error (PyErr.nameError "sampled_ids") :=
  sample_engine_raises takeDraw validDraw_takeDraw [recA] [recA] 1
    (by decide) one_pos le_rfl (by decide)

/-- C2: the claim says the engine does not raise when every answer has an
`id` key, the ratio is in scope and the filtered population is non-empty.
Under exactly those hypotheses every execution flows past the defensive
skip of lines 106-109 and reaches line 122, which reads the undefined
variable `sampled_ids` and raises `NameError`. -/
theorem C2_engine_raises_despite_claim (draw : DrawFn) (hdraw : ValidDraw draw)
    (records answers : List Record) (ratio : ℚ)
    (hids : ∀ a ∈ answers, a.id ≠ none) (h0 : 0 < ratio) (h1 : ratio ≤ 1)
    (hpop : filter_records_with_answers records (get_answer_ids answers) ≠ []) :
    sample_records_with_answers draw records answers ratio =
      Except.error (PyErr.nameError "sampled_ids") :=
  sample_engine_raises draw hdraw records answers ratio hids h0 h1 hpop

/-- Witness for C2 at records `x_1, x_2`, matching answers and ratio 1/2. -/
theorem C2_witness :
    ValidDraw takeDraw ∧ (∀ a ∈ [ansX1, ansX2], a.id ≠ none) ∧
    (0 : ℚ) < 1/2 ∧ (1/2 : ℚ) ≤ 1 ∧
    filter_records_with_answers [recX1, recX2] (get_answer_ids [ansX1, ansX2]) ≠ [] ∧
    sample_records_with_answers takeDraw [recX1, recX2] [ansX1, ansX2] (1/2) =
      Except.error (PyErr.nameError "sampled_ids") :=
  ⟨validDraw_takeDraw, by decide, by norm_num, by norm_num, by decide,
    C2_engine_raises_despite_claim takeDraw validDraw_takeDraw [recX1, recX2]
      [ansX1, ansX2] (1/2) (by decide) (by norm_num) (by norm_num) (by decide)⟩

/-- C3 counterexample: on the empty population the computed sample size is
`max(1, 0) = 1`, not `0`, and the operation does attempt the draw: the call
with empty records and answers at ratio 1/2 raises the `ValueError` of
`random.sample` rather than treating the case as nothing to sample. -/
theorem C3_counterexample :
    num_samples 0 (1/2) = 1 ∧
    sample_records_with_answers takeDraw [] [] (1/2) =
      Except.error (PyErr.valueError "Sample larger than population or is negative") := by
  refine ⟨num_samples_zero _, ?_⟩
  simp only [sample_records_with_answers, filter_records_with_answers, get_answer_ids,
    List.map_nil, List.filter_nil, List.length_nil, buildAnswerMap, List.foldl_nil,
    num_samples_zero, randomSample]
  norm_num

/-- C3 amended: for every ratio in (0, 1] and an empty population, the
sample size formula evaluates to `max(1, floor(0 * ratio)) = 1` (not `0`),
and the sampling operation attempts to draw 1 from the empty population,
raising the `ValueError` that realises the `InsufficientDataError`
condition — both inside the engine and at the direct `random.sample` call
of the no-answers branch. -/
theorem C3_empty_population_raises (ratio : ℚ) (_h0 : 0 < ratio) (_h1 : ratio ≤ 1)
    (draw : DrawFn) :
    num_samples 0 ratio = 1 ∧
    randomSample draw [] (num_samples 0 ratio) =
      Except.error (PyErr.valueError "Sample larger than population or is negative") ∧
    sample_records_with_answers draw [] [] ratio =
      Except.error (PyErr.valueError "Sample larger than population or is negative") := by
  refine ⟨num_samples_zero _, ?_, ?_⟩
  · rw [num_samples_zero, randomSample]
    norm_num
  · simp only [sample_records_with_answers, filter_records_with_answers, get_answer_ids,
      List.map_nil, List.filter_nil, List.length_nil, buildAnswerMap, List.foldl_nil,
      num_samples_zero, randomSample]
    norm_num

/-- Witness for C3's amended statement at ratio 1/2. -/
theorem C3_witness :
    (0 : ℚ) < 1/2 ∧ (1/2 : ℚ) ≤ 1 ∧
    (num_samples 0 (1/2 : ℚ) = 1 ∧
     randomSample takeDraw [] (num_samples 0 (1/2 : ℚ)) =
       Except.error (PyErr.valueError "Sample larger than population or is negative") ∧
     sample_records_with_answers takeDraw [] [] (1/2 : ℚ) =
       Except.error (PyErr.valueError "Sample larger than population or is negative")) :=
  ⟨by norm_num, by norm_num,
    C3_empty_population_raises (1/2) (by norm_num) (by norm_num) takeDraw⟩

/-- C4: for every non-empty population and ratio in (0, 1], the draw
succeeds (the requested size never exceeds the population) and the number
of sampled records equals `max(1, floor(len(population) * ratio))`. -/
theorem C4_sample_size (draw : DrawFn) (hdraw : ValidDraw draw)
    (pop : List Record) (ratio : ℚ)
    (hne : pop ≠ []) (h0 : 0 < ratio) (h1 : ratio ≤ 1) :
    ∃ s, randomSample draw pop (num_samples pop.length ratio) = Except.ok s ∧
      (s.length : ℤ) = max 1 ⌊(pop.length : ℚ) * ratio⌋ := by
  have hlen : 1 ≤ pop.length := List.length_pos.mpr hne
  have hle := num_samples_le pop.length ratio hlen h0.le h1
  refine ⟨draw pop (num_samples pop.length ratio), ?_, ?_⟩
  · unfold randomSample
    rw [if_pos hle]
  · rw [(hdraw pop (num_samples pop.length ratio) hle).1]
    exact num_samples_eq_max_floor pop.length ratio h0.le

/-- Witness for C4 at a one-record population and ratio 1. -/
theorem C4_witness :
    ValidDraw takeDraw ∧ ([recA] : List Record) ≠ [] ∧
    (0 : ℚ) < 1 ∧ (1 : ℚ) ≤ 1 ∧
    ∃ s, randomSample takeDraw [recA] (num_samples (List.length [recA]) 1) =
        Except.ok s ∧
      (s.length : ℤ) = max 1 ⌊(List.length [recA] : ℚ) * 1⌋ :=
  ⟨validDraw_takeDraw, by decide, one_pos, le_rfl,
    C4_sample_size takeDraw validDraw_takeDraw [recA] 1 (by decide) one_pos le_rfl⟩

/-- C5: the claim says every `.json` or `.jsonl` file's own contents are
loaded and sampled.  On the code only `.jsonl` assigns the `records`
variable, so a directory holding just `a.json` logs an `UnboundLocalError`,
and in a directory holding `b.jsonl` then `c.json` the output written for
`c.json` is sampled from `b.jsonl`'s records, not from `c.json`'s own
content (which differs). -/
theorem C5_json_files_not_loaded :
    process_directory takeDraw [fileA] [] 1 =
      [FileOutcome.errorLogged "a.json" (PyErr.unboundLocalError "records")] ∧
    process_directory takeDraw [fileB, fileC] [] 1 =
      [FileOutcome.savedRecords "b.jsonl" [recB],
       FileOutcome.savedRecords "c.json" [recB]] ∧
    recC ≠ recB := by
  refine ⟨?_, ?_, by decide⟩ <;>
  · simp only [process_directory, processLoop, processFileBody, catchLogged,
      num_samples_ratio_one]
    decide

/-- C6: the orchestrator yields exactly one outcome per eligible file, in
directory order, each carrying that file's path — a per-file failure is
recorded as a logged outcome and the remaining files are still processed;
no per-file error escapes `process_directory`. -/
theorem C6_per_file_errors_contained (draw : DrawFn)
    (pa : List (String × List Record)) (rate : ℚ) (files : List SrcFile) :
    (process_directory draw files pa rate).map outcomeName =
      (files.filter eligible).map SrcFile.name :=
  processLoop_names draw pa rate files none

/-- C7: `extract_numeric_id` computes the Composite Sort Key exactly as the
specification describes it, and in particular maps `"exec_simple_84"` to
`("exec_simple", 84)`, `""` to `("", 0)` and `"abc123"` to
`("abc", 123)`. -/
theorem C7_composite_sort_key :
    (∀ r : Record, extract_numeric_id r = compositeSortKeySpec (r.id.getD "")) ∧
    extract_numeric_id ⟨some "exec_simple_84", 0⟩ = ("exec_simple", 84) ∧
    extract_numeric_id ⟨some "", 0⟩ = ("", 0) ∧
    extract_numeric_id ⟨some "abc123", 0⟩ = ("abc", 123) :=
  ⟨extract_numeric_id_eq_spec, by decide, rfl, by decide⟩

/-- C8: sorting is idempotent — a list already sorted by the Composite Sort
Key is returned unchanged, and re-sorting a sorted output changes
nothing. -/
theorem C8_sort_idempotent :
    (∀ xs : List Record, SortedByKey xs → sort_by_numeric_id xs = xs) ∧
    (∀ xs : List Record,
      sort_by_numeric_id (sort_by_numeric_id xs) = sort_by_numeric_id xs) := by
  constructor
  · intro xs h
    exact List.Sorted.insertionSort_eq h
  · intro xs
    exact List.Sorted.insertionSort_eq (List.sorted_insertionSort RecordLE xs)

/-- Witness for C8 at a concrete sorted two-record list. -/
theorem C8_witness :
    SortedByKey [recX1, recX2] ∧
    sort_by_numeric_id [recX1, recX2] = [recX1, recX2] :=
  ⟨by decide, C8_sort_idempotent.1 [recX1, recX2] (by decide)⟩

/-- C9: sorting returns a permutation of its input — records are reordered,
never created, dropped or modified, and each record is in the output
exactly when it is in the input. -/
theorem C9_sort_permutation :
    ∀ xs : List Record, (sort_by_numeric_id xs).Perm xs ∧
      ∀ r : Record, r ∈ sort_by_numeric_id xs ↔ r ∈ xs :=
  fun xs => ⟨List.perm_insertionSort RecordLE xs,
    fun _ => List.mem_insertionSort RecordLE⟩

/-- C10: everything written through `save_jsonl_file` is stored sorted by
the Composite Sort Key (and is a permutation of what the caller supplied),
and consequently every collection a `process_directory` outcome reports as
saved is in canonical sorted order, on every orchestrator path. -/
theorem C10_saved_collections_sorted :
    (∀ recs : List Record, SortedByKey (save_jsonl_file recs) ∧
      (save_jsonl_file recs).Perm recs) ∧
    (∀ (draw : DrawFn) (files : List SrcFile) (pa : List (String × List Record))
      (rate : ℚ) (o : FileOutcome), o ∈ process_directory draw files pa rate →
        SavedSorted o) :=
  ⟨fun recs => ⟨sortedByKey_save recs, save_perm recs⟩,
    fun draw files pa rate o ho => savedSorted_processLoop draw pa rate files none o ho⟩

/-- Witness for C10: a directory holding one unsorted `.jsonl` file yields a
saved outcome, and that outcome is sorted. -/
theorem C10_witness :
    FileOutcome.savedRecords "d.jsonl" [recD1, recD2] ∈
      process_directory takeDraw [fileD] [] 1 ∧
    SavedSorted (FileOutcome.savedRecords "d.jsonl" [recD1, recD2]) := by
  have hmem : FileOutcome.savedRecords "d.jsonl" [recD1, recD2] ∈
      process_directory takeDraw [fileD] [] 1 := by
    simp only [process_directory, processLoop, processFileBody, catchLogged,
      num_samples_ratio_one]
    decide
  exact ⟨hmem, C10_saved_collections_sorted.2 takeDraw [fileD] [] 1 _ hmem⟩

end SampleData
